import Mathlib

/- Verification of the two micro-benchmark programs `src/simd/compute_simple.c`
   and `src/simd/compute_sse.c`: element-wise addition of two float arrays,
   once with a scalar loop and once with 128-bit SSE lane operations.

   Modelling conventions:
   * Memory is a total map `Nat → F` from float-sized addresses to values.
     The three buffers are base addresses `r`, `a`, `b` into this memory,
     exactly as the C pointers are.
   * C `float` values are modelled by an abstract type `F` together with the
     operations the programs use: an addition `fadd` (the kernel's `+`), a
     multiplication `fmul` and the constant `two` (the input generator's
     `* 2`), and the conversion `itof` (the cast `(float)i`).  Concrete
     instances use exact integer arithmetic, on which binary32 arithmetic is
     exact for the values involved.
   * `size_t` is a 64-bit unsigned integer, `int` a 32-bit signed integer
     (the platform targeted by the SSE intrinsics); the conversions between
     them are modelled explicitly by `intOfSizeT` and `sizeTOfInt`.
-/

namespace Simd

/-- Memory: a total map from float-indexed addresses to values of the
abstract scalar type `F` (the model of C `float`). -/
def Mem (F : Type) : Type := Nat → F

/-- A single store `m[p] = v`. -/
def storeM {F : Type} (m : Mem F) (p : Nat) (v : F) : Mem F :=
  fun q => if q = p then v else m q

section Kernels

variable {F : Type} (fadd fmul : F → F → F) (itof : Nat → F) (two : F)

/-- The scalar kernel of `compute_simple.c`:

    void compute(float* r, float const* a, float const* b, const size_t n) {
        for (size_t i = 0; i < n; i++) { r[i] = a[i] + b[i]; }
    }

`r`, `a`, `b` are the buffer base addresses, `n` the element count.
The recursion performs the writes for `i = 0 .. n-1` with the write at
index `n-1` done last, exactly as the ascending C loop does; each iteration
reads `a[i]` and `b[i]` from the memory produced by the previous
iterations, so pointer aliasing is modelled faithfully. -/
def compute (m : Mem F) (r a b : Nat) : Nat → Mem F
  | 0 => m
  | n + 1 =>
    storeM (compute m r a b n) (r + n)
      (fadd (compute m r a b n (a + n)) (compute m r a b n (b + n)))

/-- `compute` writes nothing outside `[r, r + n)`. -/
lemma compute_frame (m : Mem F) (r a b n q : Nat)
    (hq : q < r ∨ r + n ≤ q) :
    compute fadd m r a b n q = m q := by
  induction n with
  | zero => rfl
  | succ k ih =>
    have hne : q ≠ r + k := by omega
    simp only [compute, storeM, if_neg hne]
    exact ih (by omega)

/-- Value written by the scalar kernel at `r + j`, `j < n`, provided the
read addresses `a + j` and `b + j` are not among the writes the loop has
performed before reaching (or after passing) index `j`. -/
lemma compute_get (m : Mem F) (r a b n j : Nat) (hj : j < n)
    (ha : a + j < r ∨ r + j < a + j) (hb : b + j < r ∨ r + j < b + j) :
    compute fadd m r a b n (r + j) = fadd (m (a + j)) (m (b + j)) := by
  induction n with
  | zero => omega
  | succ k ih =>
    by_cases hjk : j = k
    · subst hjk
      have hA : compute fadd m r a b j (a + j) = m (a + j) :=
        compute_frame fadd m r a b j (a + j) (by omega)
      have hB : compute fadd m r a b j (b + j) = m (b + j) :=
        compute_frame fadd m r a b j (b + j) (by omega)
      simp only [compute, storeM, if_pos rfl]
      simp [hA, hB]
    · have hne : r + j ≠ r + k := by omega
      simp only [compute, storeM, if_neg hne]
      exact ih (by omega)

/-- `sizeof(float)` in bytes on the target platform. -/
def sizeofFloat : Nat := 4

/-- `compute_sse.c` line 17: `size_t nb_items = (128 / (sizeof(float)*8));`
— the number of 32-bit lanes of a 128-bit SSE register. -/
def nb_items : Nat := 128 / (sizeofFloat * 8)

/-- One iteration of the SSE loop body at block start `i`:

    sse_a = _mm_load_ps(&a[i]);
    sse_b = _mm_load_ps(&b[i]);
    sse_r = _mm_add_ps(sse_a, sse_b);
    _mm_store_ps(&r[i], sse_r);

The eight loads read `a[i..i+3]` and `b[i..i+3]` from the incoming memory
`m` (all loads precede the store), then the four lane sums are stored to
`r[i..i+3]`. -/
def storeBlock (m : Mem F) (r a b i : Nat) : Mem F :=
  storeM (storeM (storeM (storeM m
    (r + i) (fadd (m (a + i)) (m (b + i))))
    (r + (i + 1)) (fadd (m (a + (i + 1))) (m (b + (i + 1)))))
    (r + (i + 2)) (fadd (m (a + (i + 2))) (m (b + (i + 2)))))
    (r + (i + 3)) (fadd (m (a + (i + 3))) (m (b + (i + 3))))

/-- `storeBlock` writes nothing outside `[r + i, r + i + 4)`. -/
lemma storeBlock_out (m : Mem F) (r a b i q : Nat)
    (hq : q < r + i ∨ r + i + 4 ≤ q) :
    storeBlock fadd m r a b i q = m q := by
  have e3 : q ≠ r + (i + 3) := by omega
  have e2 : q ≠ r + (i + 2) := by omega
  have e1 : q ≠ r + (i + 1) := by omega
  have e0 : q ≠ r + i := by omega
  simp only [storeBlock, storeM, if_neg e3, if_neg e2, if_neg e1, if_neg e0]

/-- Lane `t` (`t < 4`) of a block holds the sum of the corresponding
input lanes. -/
lemma storeBlock_lane (m : Mem F) (r a b i t : Nat) (ht : t < 4) :
    storeBlock fadd m r a b i (r + (i + t)) =
      fadd (m (a + (i + t))) (m (b + (i + t))) := by
  have h4 : t = 0 ∨ t = 1 ∨ t = 2 ∨ t = 3 := by omega
  rcases h4 with rfl | rfl | rfl | rfl
  · have e3 : r + (i + 0) ≠ r + (i + 3) := by omega
    have e2 : r + (i + 0) ≠ r + (i + 2) := by omega
    have e1 : r + (i + 0) ≠ r + (i + 1) := by omega
    have e0 : r + (i + 0) = r + i := by omega
    simp only [storeBlock, storeM, if_neg e3, if_neg e2, if_neg e1, if_pos e0]
    simp
  · have e3 : r + (i + 1) ≠ r + (i + 3) := by omega
    have e2 : r + (i + 1) ≠ r + (i + 2) := by omega
    simp only [storeBlock, storeM, if_neg e3, if_neg e2, if_pos rfl]
    simp
  · have e3 : r + (i + 2) ≠ r + (i + 3) := by omega
    simp only [storeBlock, storeM, if_neg e3, if_pos rfl]
    simp
  · simp only [storeBlock, storeM, if_pos rfl]
    simp

/-- The SSE loop of `compute_sse.c`:

    for (size_t i = 0; i < nsse; i += 4) { ...storeBlock at i... }

`nsse` is always a multiple of 4 (it is `(x / nb_items) * nb_items` with
`nb_items = 4`), so the loop executes exactly `nsse / 4 = k` iterations
with block starts `i = 4*blk` for `blk = 0 .. k-1`; the recursion performs
block `k-1` last, exactly as the ascending C loop does. -/
def sseBlocks (m : Mem F) (r a b : Nat) : Nat → Mem F
  | 0 => m
  | k + 1 => storeBlock fadd (sseBlocks m r a b k) r a b (4 * k)

/-- The SSE loop writes nothing outside `[r, r + 4*k)`. -/
lemma sseBlocks_frame (m : Mem F) (r a b k q : Nat)
    (hq : q < r ∨ r + 4 * k ≤ q) :
    sseBlocks fadd m r a b k q = m q := by
  induction k with
  | zero => rfl
  | succ t ih =>
    rw [sseBlocks, storeBlock_out fadd _ r a b (4 * t) q (by omega)]
    exact ih (by omega)

/-- Value written by the SSE loop at `r + j`, `j < 4*k`, provided the read
addresses `a + j` and `b + j` are not among the writes the loop has
performed before reaching index `j`'s block. -/
lemma sseBlocks_get (m : Mem F) (r a b k j : Nat) (hj : j < 4 * k)
    (ha : a + j < r ∨ r + j < a + j) (hb : b + j < r ∨ r + j < b + j) :
    sseBlocks fadd m r a b k (r + j) = fadd (m (a + j)) (m (b + j)) := by
  induction k with
  | zero => omega
  | succ t ih =>
    by_cases hjt : j < 4 * t
    · rw [sseBlocks, storeBlock_out fadd _ r a b (4 * t) (r + j) (by omega)]
      exact ih hjt
    · obtain ⟨u, hu, rfl⟩ : ∃ u, u < 4 ∧ j = 4 * t + u :=
        ⟨j - 4 * t, by omega, by omega⟩
      rw [sseBlocks, storeBlock_lane fadd _ r a b (4 * t) u hu]
      have hA : sseBlocks fadd m r a b t (a + (4 * t + u)) = m (a + (4 * t + u)) :=
        sseBlocks_frame fadd m r a b t _ (by omega)
      have hB : sseBlocks fadd m r a b t (b + (4 * t + u)) = m (b + (4 * t + u)) :=
        sseBlocks_frame fadd m r a b t _ (by omega)
      rw [hA, hB]

end Kernels

/-- The implicit conversion of a 64-bit `size_t` value to a 32-bit signed
`int` that happens at the call `compute_sse(result, data1, data2, n)` in
`compute_sse.c` (two's-complement narrowing, the behaviour of the target
platform). -/
def intOfSizeT (n : Nat) : Int :=
  if n % 2 ^ 32 < 2 ^ 31 then ((n % 2 ^ 32 : Nat) : Int)
  else ((n % 2 ^ 32 : Nat) : Int) - 2 ^ 32

/-- The conversion of the signed `int` parameter `n` back to `size_t`
(modulo 2^64) that the usual arithmetic conversions perform in the
expression `n / nb_items` (`int` divided by `size_t`) inside
`compute_sse`. -/
def sizeTOfInt (v : Int) : Nat := (v % (2 ^ 64 : Int)).toNat

/-- `compute_sse.c` line 18: `const size_t nsse = (n/nb_items)*nb_items;`
with `n` the `int` parameter, converted to `size_t` for the division. -/
def nsseOfCount (n : Int) : Nat := (sizeTOfInt n / nb_items) * nb_items

section KernelsB

variable {F : Type} (fadd : F → F → F) (itof : Nat → F) (fmul : F → F → F) (two : F)

/-- The vectorized kernel of `compute_sse.c`:

    void compute_sse(float* r, float const* a, float const* b, const int n) {
        size_t nb_items = (128 / (sizeof(float)*8));
        const size_t nsse = (n/nb_items)*nb_items;
        for (size_t i = 0; i < nsse; i += 4) { ... }
    }

Note the element-count parameter is a signed `int` (see `intOfSizeT` for
the narrowing performed at the call site).  `nsse` is a multiple of 4, so
the loop executes `nsse / 4` block iterations (see `sseBlocks`). -/
def compute_sse (m : Mem F) (r a b : Nat) (n : Int) : Mem F :=
  sseBlocks fadd m r a b (nsseOfCount n / 4)

/-- The input generator, the fill loop shared by both `main`s:

    for (size_t i = 0; i < n; i++) {
        data1[i] = (float)i;
        data2[i] = (float)i*2;
    }

Each iteration writes `data1[i]` first, `data2[i]` second. -/
def fillLoop (m : Mem F) (data1 data2 : Nat) : Nat → Mem F
  | 0 => m
  | n + 1 =>
    storeM
      (storeM (fillLoop m data1 data2 n) (data1 + n) (itof n))
      (data2 + n) (fmul (itof n) two)

/-- The fill loop writes nothing outside the two input buffers. -/
lemma fillLoop_frame (m : Mem F) (data1 data2 n q : Nat)
    (h1 : q < data1 ∨ data1 + n ≤ q) (h2 : q < data2 ∨ data2 + n ≤ q) :
    fillLoop itof fmul two m data1 data2 n q = m q := by
  induction n with
  | zero => rfl
  | succ k ih =>
    have e2 : q ≠ data2 + k := by omega
    have e1 : q ≠ data1 + k := by omega
    simp only [fillLoop, storeM, if_neg e2, if_neg e1]
    exact ih (by omega) (by omega)

/-- After the fill loop, `data1[j] = (float)j` for `j < n`, provided the
`data2` writes do not land on that address. -/
lemma fillLoop_get1 (m : Mem F) (data1 data2 n j : Nat) (hj : j < n)
    (hc : data1 + j < data2 ∨ data2 + n ≤ data1 + j) :
    fillLoop itof fmul two m data1 data2 n (data1 + j) = itof j := by
  induction n with
  | zero => omega
  | succ k ih =>
    by_cases hjk : j = k
    · subst hjk
      have e2 : data1 + j ≠ data2 + j := by omega
      simp only [fillLoop, storeM, if_neg e2, if_pos rfl]
      simp
    · have e2 : data1 + j ≠ data2 + k := by omega
      have e1 : data1 + j ≠ data1 + k := by omega
      simp only [fillLoop, storeM, if_neg e2, if_neg e1]
      exact ih (by omega) (by omega)

/-- After the fill loop, `data2[j] = (float)j * 2` for `j < n`, provided
the `data1` writes do not land on that address. -/
lemma fillLoop_get2 (m : Mem F) (data1 data2 n j : Nat) (hj : j < n)
    (hc : data2 + j < data1 ∨ data1 + n ≤ data2 + j) :
    fillLoop itof fmul two m data1 data2 n (data2 + j) = fmul (itof j) two := by
  induction n with
  | zero => omega
  | succ k ih =>
    by_cases hjk : j = k
    · subst hjk
      simp only [fillLoop, storeM, if_pos rfl]
      simp
    · have e2 : data2 + j ≠ data2 + k := by omega
      have e1 : data2 + j ≠ data1 + k := by omega
      simp only [fillLoop, storeM, if_neg e2, if_neg e1]
      exact ih (by omega) (by omega)

/-- The benchmark pipeline of `compute_simple.c`'s `main` acting on the
buffers: fill `data1`/`data2` by the input generator, then run the scalar
kernel (`compute(result, data1, data2, n)`).  `n` is the `size_t` element
count. -/
def runScalar (m : Mem F) (data1 data2 result n : Nat) : Mem F :=
  compute fadd (fillLoop itof fmul two m data1 data2 n) result data1 data2 n

/-- The benchmark pipeline of `compute_sse.c`'s `main`: fill, then run the
vectorized kernel — `compute_sse(result, data1, data2, n)` narrows the
`size_t` count `n` to `int`. -/
def runSse (m : Mem F) (data1 data2 result n : Nat) : Mem F :=
  compute_sse fadd (fillLoop itof fmul two m data1 data2 n) result data1 data2
    (intOfSizeT n)

end KernelsB

/-- Two buffers `[p1, p1 + n1)` and `[p2, p2 + n2)` do not overlap — the
situation the driver's three separately allocated buffers are in. -/
def RegionsDisjoint (p1 n1 p2 n2 : Nat) : Prop :=
  p1 + n1 ≤ p2 ∨ p2 + n2 ≤ p1

/-- Narrowing is the identity on counts below `2^31` (`INT_MAX + 1`). -/
lemma intOfSizeT_small {n : Nat} (h : n < 2 ^ 31) : intOfSizeT n = (n : Int) := by
  have hm : n % 2 ^ 32 = n := Nat.mod_eq_of_lt (by omega)
  simp only [intOfSizeT, hm, if_pos h]

/-- Converting a small nonnegative `int` value to `size_t` is the identity. -/
lemma sizeTOfInt_ofNat {n : Nat} (h : n < 2 ^ 64) : sizeTOfInt (n : Int) = n := by
  unfold sizeTOfInt
  rw [Int.emod_eq_of_lt (by positivity) (by exact_mod_cast h)]
  simp

/-- For counts below `2^31` the vectorized kernel's `nsse` is the spec's
`m = floor(n/4)*4`. -/
lemma nsseOfCount_small {n : Nat} (h : n < 2 ^ 31) :
    nsseOfCount (intOfSizeT n) = n / 4 * 4 := by
  rw [intOfSizeT_small h, nsseOfCount, sizeTOfInt_ofNat (by omega)]
  rfl

/-- The numeric value of a digit string (most significant digit first). -/
def digitsVal (cs : List Char) : Nat :=
  cs.foldl (fun acc c => acc * 10 + (c.toNat - 48)) 0

/-- Modelled from the spec: the C library function `atoll` used by both
`main`s to parse the element count (external libc code, not under `src/`;
the spec only says the CLI parses "a single positive integer argument").
Standard C semantics: skip leading whitespace, an optional sign, then the
longest prefix of decimal digits; the result is `0` when no digits are
found (there is no error report). -/
def atoll (s : String) : Int :=
  match s.data.dropWhile (fun c => c.isWhitespace) with
  | '-' :: rest => - (digitsVal (rest.takeWhile (fun c => c.isDigit)) : Int)
  | '+' :: rest => (digitsVal (rest.takeWhile (fun c => c.isDigit)) : Int)
  | rest => (digitsVal (rest.takeWhile (fun c => c.isDigit)) : Int)

/-- The control-flow trace of one driver (`main`) run: which steps were
executed, the exit status, and which buffers were released.  This is the
observable behaviour the error-handling and ownership claims are about. -/
structure RunTrace where
  exitCode : Nat
  printedUsage : Bool
  count : Option Nat
  filled : Bool
  computed : Bool
  readResult : Bool
  freed : List Nat
deriving DecidableEq

/-- `main` of `compute_simple.c`.  The three `Bool` parameters are the
success statuses returned by the three `posix_memalign` calls; the source
assigns each of them to the variable `dummy` and never reads it, so the
trace does not depend on them.  With at least one CLI argument the driver
unconditionally parses `n = atoll(argv[1])` (converted to `size_t`),
fills, computes, prints the first four results and returns `0`, freeing
nothing; with no argument it prints the usage message and returns `1`. -/
def mainSimpleTrace (args : List String) (alloc1 alloc2 alloc3 : Bool) :
    RunTrace :=
  match args, alloc1, alloc2, alloc3 with
  | _ :: arg1 :: _, _, _, _ =>
    { exitCode := 0, printedUsage := false,
      count := some (sizeTOfInt (atoll arg1)),
      filled := true, computed := true, readResult := true, freed := [] }
  | _, _, _, _ =>
    { exitCode := 1, printedUsage := true, count := none,
      filled := false, computed := false, readResult := false, freed := [] }

/-- `main` of `compute_sse.c`: identical control flow to
`mainSimpleTrace` (the two programs are near-duplicates, differing only in
which kernel the compute step invokes). -/
def mainSseTrace (args : List String) (alloc1 alloc2 alloc3 : Bool) :
    RunTrace :=
  match args, alloc1, alloc2, alloc3 with
  | _ :: arg1 :: _, _, _, _ =>
    { exitCode := 0, printedUsage := false,
      count := some (sizeTOfInt (atoll arg1)),
      filled := true, computed := true, readResult := true, freed := [] }
  | _, _, _, _ =>
    { exitCode := 1, printedUsage := true, count := none,
      filled := false, computed := false, readResult := false, freed := [] }

/-- Helper for `isPow2`: repeatedly halve `m` (the first argument is
fuel, always at least `m`, making the recursion structural). -/
def isPow2Aux : Nat → Nat → Bool
  | 0, _ => false
  | _ + 1, 0 => false
  | _ + 1, 1 => true
  | fuel + 1, m => decide (m % 2 = 0) && isPow2Aux fuel (m / 2)

/-- `true` iff `a` is a power of two. -/
def isPow2 (a : Nat) : Bool := isPow2Aux a a

/-- Modelled from the spec: the Aligned Buffer Allocator
(`posix_memalign`, platform code outside `src/`).  Per spec section 4.2 the
request is for `count * sizeof(float)` bytes at an alignment that must be
a power of two and at least 32, and it fails exactly when the platform
cannot satisfy it: an invalid alignment, or insufficient memory (`avail`
is the memory the platform can provide; a zero-byte request needs none).
Returns `true` on success. -/
def allocate (count alignment avail : Nat) : Bool :=
  isPow2 alignment && decide (32 ≤ alignment) &&
    decide (count * sizeofFloat ≤ avail)

/-- Concrete instance of the float model for witnesses and
counterexamples: exact integer arithmetic (binary32 arithmetic is exact on
every value these runs produce).  The kernel's lane/element addition. -/
def faddZ : ℤ → ℤ → ℤ := fun x y => x + y

/-- Concrete instance: the input generator's multiplication. -/
def fmulZ : ℤ → ℤ → ℤ := fun x y => x * y

/-- Concrete instance: the conversion `(float)i`. -/
def itofZ : Nat → ℤ := fun i => (i : ℤ)

/-- A concrete initial memory holding `999` everywhere: the recognizable
"never written" value used by the counterexamples and witnesses. -/
def m999 : Mem ℤ := fun _ => 999

/-- C2: for every element count `n >= 0` (and any disjoint buffer layout,
which the allocator guarantees), after the fill loop and the scalar kernel
of `compute_simple.c`, every index `i < n` of the result buffer holds
`float(i) + float(2*i)`; the hypothesis `h2` is the binary32 identity
`float(i) * 2 = float(2*i)` (exact doubling), satisfied by the exact
model.  In particular for `n = 8` the result is
`[0, 3, 6, 9, 12, 15, 18, 21]`. -/
theorem scalar_correct {F : Type} (fadd : F → F → F) (itof : Nat → F)
    (fmul : F → F → F) (two : F) (m : Mem F) (data1 data2 result n : Nat)
    (h2 : ∀ i : Nat, fmul (itof i) two = itof (2 * i))
    (hab : RegionsDisjoint data1 n data2 n)
    (hra : RegionsDisjoint result n data1 n)
    (hrb : RegionsDisjoint result n data2 n) :
    (∀ j, j < n →
      runScalar fadd itof fmul two m data1 data2 result n (result + j) =
        fadd (itof j) (itof (2 * j))) ∧
    (List.range 8).map
      (fun j => runScalar faddZ itofZ fmulZ 2 m999 0 8 16 8 (16 + j)) =
      [0, 3, 6, 9, 12, 15, 18, 21] := by
  constructor
  · intro j hj
    have ha : data1 + j < result ∨ result + j < data1 + j := by
      unfold RegionsDisjoint at hra; omega
    have hb : data2 + j < result ∨ result + j < data2 + j := by
      unfold RegionsDisjoint at hrb; omega
    unfold runScalar
    rw [compute_get fadd _ result data1 data2 n j hj ha hb]
    rw [fillLoop_get1 itof fmul two m data1 data2 n j hj
      (by unfold RegionsDisjoint at hab; omega)]
    rw [fillLoop_get2 itof fmul two m data1 data2 n j hj
      (by unfold RegionsDisjoint at hab; omega)]
    rw [h2 j]
  · decide

/-- Witness for `scalar_correct` at the end-to-end scenario `n = 8`:
`result[7] = float(7) + float(14) ( = 21)`. -/
theorem scalar_correct_witness :
    runScalar faddZ itofZ fmulZ 2 m999 0 8 16 8 (16 + 7) =
      faddZ (itofZ 7) (itofZ (2 * 7)) :=
  (scalar_correct faddZ itofZ fmulZ 2 m999 0 8 16 8
    (fun i => by unfold fmulZ itofZ; push_cast; ring)
    (by unfold RegionsDisjoint; omega)
    (by unfold RegionsDisjoint; omega)
    (by unfold RegionsDisjoint; omega)).1 7 (by omega)

/-- C8: for `n = 0` the run produces an empty result: the scalar kernel,
the vectorized kernel (called with the narrowed count `intOfSizeT 0`) and
the fill loop each execute zero iterations, leaving memory untouched, and
the aligned allocation of zero floats at alignment 32 succeeds whatever
memory the platform has available. -/
theorem n_zero_behavior :
    (∀ (F : Type) (fadd : F → F → F) (m : Mem F) (r a b : Nat),
      compute fadd m r a b 0 = m) ∧
    (∀ (F : Type) (fadd : F → F → F) (m : Mem F) (r a b : Nat),
      compute_sse fadd m r a b (intOfSizeT 0) = m) ∧
    (∀ (F : Type) (itof : Nat → F) (fmul : F → F → F) (two : F) (m : Mem F)
      (d1 d2 : Nat), fillLoop itof fmul two m d1 d2 0 = m) ∧
    (∀ avail : Nat, allocate 0 32 avail = true) :=
  ⟨fun _ _ _ _ _ _ => rfl, fun _ _ _ _ _ _ => rfl,
   fun _ _ _ _ _ _ _ => rfl,
   fun avail => by
    simp only [allocate, sizeofFloat, Bool.and_eq_true, decide_eq_true_eq]
    refine ⟨⟨by decide, by decide⟩, by omega⟩⟩

/-- C10: the vectorized kernel's element count is a signed `int` while the
driver's `n` is `size_t`, so the call narrows `n` (`intOfSizeT`) and the
processed prefix `nsse` is computed from the narrowed value: it equals
`floor(n/4)*4` for every count up to `INT_MAX`, but can differ beyond it —
at `n = 2^31` the narrowed value is negative and its conversion back to
`size_t` in the division makes `nsse` huge (`2^64 - 2^31`), and at
`n = 2^32` the narrowed value is `0`, so `nsse = 0` instead of `2^32`. -/
theorem sse_count_narrowing :
    (∀ n : Nat, n ≤ 2 ^ 31 - 1 → nsseOfCount (intOfSizeT n) = n / 4 * 4) ∧
    (∃ n : Nat, 2 ^ 31 - 1 < n ∧ nsseOfCount (intOfSizeT n) ≠ n / 4 * 4) ∧
    intOfSizeT (2 ^ 31) = -(2 ^ 31) ∧
    nsseOfCount (intOfSizeT (2 ^ 31)) = 2 ^ 64 - 2 ^ 31 ∧
    nsseOfCount (intOfSizeT (2 ^ 32)) = 0 := by
  refine ⟨fun n hn => nsseOfCount_small (by omega),
    ⟨2 ^ 32, by norm_num, ?_⟩, by decide, by decide, by decide⟩
  decide

/-- Witness for `sse_count_narrowing` (first conjunct at `n = 10`): below
`INT_MAX` the processed prefix is the spec's `floor(n/4)*4`. -/
theorem sse_count_narrowing_witness :
    nsseOfCount (intOfSizeT 10) = 10 / 4 * 4 :=
  sse_count_narrowing.1 10 (by norm_num)

/-- C5 counterexample: with all three allocations failing (the three
status parameters `false`), both drivers still fill, compute, read the
result and exit 0 — the allocation-failure branch the claim describes does
not exist (`posix_memalign`'s status goes into `dummy`, which is never
read). -/
theorem alloc_failure_ignored_cex :
    (mainSimpleTrace (["./compute_simple", "8"]) false false false).filled = true ∧
    (mainSimpleTrace (["./compute_simple", "8"]) false false false).computed = true ∧
    (mainSimpleTrace (["./compute_simple", "8"]) false false false).readResult = true ∧
    (mainSimpleTrace (["./compute_simple", "8"]) false false false).exitCode = 0 ∧
    (mainSseTrace (["./compute_sse", "8"]) false false false).filled = true ∧
    (mainSseTrace (["./compute_sse", "8"]) false false false).computed = true ∧
    (mainSseTrace (["./compute_sse", "8"]) false false false).readResult = true ∧
    (mainSseTrace (["./compute_sse", "8"]) false false false).exitCode = 0 :=
  ⟨rfl, rfl, rfl, rfl, rfl, rfl, rfl, rfl⟩

/-- C5 (amended): the drivers ignore the allocation statuses entirely —
the run's trace is independent of them, and whenever an argument is
supplied the drivers unconditionally fill, compute on and read the buffers
and exit 0, whether or not any allocation failed. -/
theorem alloc_status_ignored :
    ∀ (args : List String) (s1 s2 s3 t1 t2 t3 : Bool),
      mainSimpleTrace args s1 s2 s3 = mainSimpleTrace args t1 t2 t3 ∧
      mainSseTrace args s1 s2 s3 = mainSseTrace args t1 t2 t3 ∧
      (∀ (a0 a1 : String) (rest : List String),
        (mainSimpleTrace (a0 :: a1 :: rest) s1 s2 s3).filled = true ∧
        (mainSimpleTrace (a0 :: a1 :: rest) s1 s2 s3).computed = true ∧
        (mainSimpleTrace (a0 :: a1 :: rest) s1 s2 s3).readResult = true ∧
        (mainSimpleTrace (a0 :: a1 :: rest) s1 s2 s3).exitCode = 0 ∧
        (mainSseTrace (a0 :: a1 :: rest) s1 s2 s3).filled = true ∧
        (mainSseTrace (a0 :: a1 :: rest) s1 s2 s3).computed = true ∧
        (mainSseTrace (a0 :: a1 :: rest) s1 s2 s3).readResult = true ∧
        (mainSseTrace (a0 :: a1 :: rest) s1 s2 s3).exitCode = 0) := by
  intro args s1 s2 s3 t1 t2 t3
  refine ⟨?_, ?_, fun a0 a1 rest => ⟨rfl, rfl, rfl, rfl, rfl, rfl, rfl, rfl⟩⟩ <;>
    match args with
    | [] => rfl
    | [a] => rfl
    | a :: b :: t => rfl

/-- C6 counterexample: on the normal exit path of a successful run (all
three allocations succeeded) neither driver frees any buffer — there is no
`free` call in either program, so "releases all three buffers on every
exit path" fails. -/
theorem buffers_never_freed_cex :
    (mainSimpleTrace (["./compute_simple", "8"]) true true true).freed = [] ∧
    (mainSimpleTrace (["./compute_simple", "8"]) true true true).exitCode = 0 ∧
    (mainSseTrace (["./compute_sse", "8"]) true true true).freed = [] ∧
    (mainSseTrace (["./compute_sse", "8"]) true true true).exitCode = 0 :=
  ⟨rfl, rfl, rfl, rfl⟩

/-- C6 (amended): the drivers release nothing on any exit path — the freed
list of every run of either program is empty; the buffers are reclaimed
only by process termination. -/
theorem driver_frees_nothing :
    ∀ (args : List String) (s1 s2 s3 : Bool),
      (mainSimpleTrace args s1 s2 s3).freed = [] ∧
      (mainSseTrace args s1 s2 s3).freed = [] := by
  intro args s1 s2 s3
  refine ⟨?_, ?_⟩ <;>
    match args with
    | [] => rfl
    | [a] => rfl
    | a :: b :: t => rfl

/-- C7 counterexample: a non-numeric element count is not rejected —
`atoll("abc")` yields `0` and both drivers proceed to allocate, fill and
compute with `n = 0`, exiting 0 with no usage message. -/
theorem cli_nonnumeric_cex :
    (mainSimpleTrace (["./compute_simple", "abc"]) true true true).exitCode = 0 ∧
    (mainSimpleTrace (["./compute_simple", "abc"]) true true true).printedUsage = false ∧
    (mainSimpleTrace (["./compute_simple", "abc"]) true true true).computed = true ∧
    (mainSimpleTrace (["./compute_simple", "abc"]) true true true).count = some 0 ∧
    (mainSseTrace (["./compute_sse", "abc"]) true true true).exitCode = 0 ∧
    (mainSseTrace (["./compute_sse", "abc"]) true true true).printedUsage = false ∧
    (mainSseTrace (["./compute_sse", "abc"]) true true true).computed = true ∧
    (mainSseTrace (["./compute_sse", "abc"]) true true true).count = some 0 := by
  refine ⟨rfl, rfl, rfl, ?_, rfl, rfl, rfl, ?_⟩ <;> decide

/-- C7 (amended): a missing element count is rejected with the usage
message, exit status 1, and no allocation or computation; a non-numeric
count is NOT rejected — `atoll` returns 0 for it and the run proceeds
normally with count 0. -/
theorem cli_argument_handling (a0 a1 : String) (rest : List String)
    (s1 s2 s3 : Bool) (h0 : atoll a1 = 0) :
    ((mainSimpleTrace (a0 :: a1 :: rest) s1 s2 s3).count = some 0 ∧
     (mainSimpleTrace (a0 :: a1 :: rest) s1 s2 s3).exitCode = 0 ∧
     (mainSimpleTrace (a0 :: a1 :: rest) s1 s2 s3).computed = true ∧
     (mainSseTrace (a0 :: a1 :: rest) s1 s2 s3).count = some 0 ∧
     (mainSseTrace (a0 :: a1 :: rest) s1 s2 s3).exitCode = 0 ∧
     (mainSseTrace (a0 :: a1 :: rest) s1 s2 s3).computed = true) ∧
    ((mainSimpleTrace [] s1 s2 s3).exitCode = 1 ∧
     (mainSimpleTrace [] s1 s2 s3).printedUsage = true ∧
     (mainSimpleTrace [] s1 s2 s3).filled = false ∧
     (mainSimpleTrace [] s1 s2 s3).computed = false ∧
     (mainSimpleTrace [a0] s1 s2 s3).exitCode = 1 ∧
     (mainSimpleTrace [a0] s1 s2 s3).printedUsage = true ∧
     (mainSimpleTrace [a0] s1 s2 s3).filled = false ∧
     (mainSimpleTrace [a0] s1 s2 s3).computed = false ∧
     (mainSseTrace [] s1 s2 s3).exitCode = 1 ∧
     (mainSseTrace [] s1 s2 s3).printedUsage = true ∧
     (mainSseTrace [a0] s1 s2 s3).exitCode = 1 ∧
     (mainSseTrace [a0] s1 s2 s3).printedUsage = true) := by
  have hc : some (sizeTOfInt (atoll a1)) = some 0 := by rw [h0]; rfl
  exact ⟨⟨hc, rfl, rfl, hc, rfl, rfl⟩,
    rfl, rfl, rfl, rfl, rfl, rfl, rfl, rfl, rfl, rfl, rfl, rfl⟩

/-- Witness for `cli_argument_handling` at the concrete non-numeric
argument `"abc"`. -/
theorem cli_argument_handling_witness :
    (mainSimpleTrace (["./compute_simple", "abc"]) true true true).count = some 0 :=
  (cli_argument_handling ("./compute_simple") ("abc") [] true true true
    (by decide)).1.1

/-- C1 counterexample: the claim's "for every element count `n >= 0`"
fails at `n = 2^32`: the count narrows to `int` value 0, the vectorized
kernel runs zero iterations, and `result[0]` keeps its prior value `999`
instead of `float(0) + float(0) = 0`, although index 0 lies in the covered
prefix `[0, floor(n/4)*4) = [0, 2^32)`.  (Layout: `data1 = 0`,
`data2 = 2^32`, `result = 2^33`, disjoint.) -/
theorem sse_prefix_correct_cex :
    runSse faddZ itofZ fmulZ 2 m999 0 (2 ^ 32) (2 ^ 33) (2 ^ 32) (2 ^ 33 + 0) = 999 ∧
    faddZ (itofZ 0) (itofZ (2 * 0)) = 0 ∧
    (999 : ℤ) ≠ 0 ∧
    0 < 2 ^ 32 / 4 * 4 := by
  have h0 : intOfSizeT (2 ^ 32) = 0 := by decide
  have h1 : nsseOfCount 0 / 4 = 0 := by decide
  refine ⟨?_, by decide, by decide, by norm_num⟩
  unfold runSse compute_sse
  rw [h0, h1]
  show fillLoop itofZ fmulZ 2 m999 0 (2 ^ 32) (2 ^ 32) (2 ^ 33 + 0) = 999
  rw [fillLoop_frame itofZ fmulZ 2 m999 0 (2 ^ 32) (2 ^ 32) (2 ^ 33 + 0)
    (Or.inr (by norm_num)) (Or.inr (by norm_num))]
  rfl

/-- C1 (amended): for every element count `n` that survives the `int`
narrowing of the kernel's count parameter (`n < 2^31`, see
`sse_count_narrowing` for larger counts), after the fill loop and the
vectorized kernel of `compute_sse.c` on disjoint buffers, every index
`j < m = floor(n/4)*4` of the result holds `float(j) + float(2*j)`; the
lane width `nb_items` is the compile-time constant
`128 / (sizeof(float)*8) = 4`. -/
theorem sse_prefix_correct {F : Type} (fadd : F → F → F) (itof : Nat → F)
    (fmul : F → F → F) (two : F) (m : Mem F) (data1 data2 result n : Nat)
    (h2 : ∀ i : Nat, fmul (itof i) two = itof (2 * i))
    (hn : n < 2 ^ 31)
    (hab : RegionsDisjoint data1 n data2 n)
    (hra : RegionsDisjoint result n data1 n)
    (hrb : RegionsDisjoint result n data2 n) :
    (∀ j, j < n / 4 * 4 →
      runSse fadd itof fmul two m data1 data2 result n (result + j) =
        fadd (itof j) (itof (2 * j))) ∧
    nb_items = 4 := by
  refine ⟨fun j hj => ?_, rfl⟩
  have hjn : j < n := by omega
  have ha : data1 + j < result ∨ result + j < data1 + j := by
    unfold RegionsDisjoint at hra; omega
  have hb : data2 + j < result ∨ result + j < data2 + j := by
    unfold RegionsDisjoint at hrb; omega
  unfold runSse compute_sse
  rw [nsseOfCount_small hn]
  have h4 : n / 4 * 4 / 4 = n / 4 := by omega
  rw [h4]
  rw [sseBlocks_get fadd _ result data1 data2 (n / 4) j (by omega) ha hb]
  rw [fillLoop_get1 itof fmul two m data1 data2 n j hjn
    (by unfold RegionsDisjoint at hab; omega)]
  rw [fillLoop_get2 itof fmul two m data1 data2 n j hjn
    (by unfold RegionsDisjoint at hab; omega)]
  rw [h2 j]

/-- Witness for `sse_prefix_correct` at `n = 8`:
`result[5] = float(5) + float(10)`. -/
theorem sse_prefix_correct_witness :
    runSse faddZ itofZ fmulZ 2 m999 0 8 16 8 (16 + 5) =
      faddZ (itofZ 5) (itofZ (2 * 5)) :=
  (sse_prefix_correct faddZ itofZ fmulZ 2 m999 0 8 16 8
    (fun i => by unfold fmulZ itofZ; push_cast; ring)
    (by norm_num)
    (by unfold RegionsDisjoint; omega)
    (by unfold RegionsDisjoint; omega)
    (by unfold RegionsDisjoint; omega)).1 5 (by norm_num)

/-- C3 counterexample: at `n = 2^32` (which narrows to `int` 0) the two
kernels disagree on index 0 of the covered prefix: on the same disjoint
buffers (`r = 0`, `a = 2^32`, `b = 2^33`, all of length `n`, memory
initially 999 everywhere) the scalar kernel writes
`r[0] = a[0] + b[0] = 1998` while the vectorized kernel runs zero
iterations and leaves `r[0] = 999`. -/
theorem kernels_agree_cex :
    compute faddZ m999 0 (2 ^ 32) (2 ^ 33) (2 ^ 32) (0 + 0) = 1998 ∧
    compute_sse faddZ m999 0 (2 ^ 32) (2 ^ 33) (intOfSizeT (2 ^ 32)) (0 + 0) = 999 ∧
    (1998 : ℤ) ≠ 999 ∧
    0 < 2 ^ 32 / 4 * 4 ∧
    RegionsDisjoint 0 (2 ^ 32) (2 ^ 32) (2 ^ 32) ∧
    RegionsDisjoint 0 (2 ^ 32) (2 ^ 33) (2 ^ 32) ∧
    RegionsDisjoint (2 ^ 32) (2 ^ 32) (2 ^ 33) (2 ^ 32) := by
  have h0 : intOfSizeT (2 ^ 32) = 0 := by decide
  have h1 : nsseOfCount 0 / 4 = 0 := by decide
  refine ⟨?_, ?_, by decide, by norm_num, ?_, ?_, ?_⟩
  · rw [compute_get faddZ m999 0 (2 ^ 32) (2 ^ 33) (2 ^ 32) 0 (by norm_num)
      (Or.inr (by norm_num)) (Or.inr (by norm_num))]
    rfl
  · unfold compute_sse
    rw [h0, h1]
    rfl
  · unfold RegionsDisjoint; left; norm_num
  · unfold RegionsDisjoint; left; norm_num
  · unfold RegionsDisjoint; left; norm_num

/-- C3 (amended): for every count `n` that survives the `int` narrowing
(`n < 2^31`) and every pair of input buffers disjoint from the result
buffer, the scalar and the vectorized kernel write identical values at
every index of the covered prefix `[0, floor(n/4)*4)`. -/
theorem kernels_agree {F : Type} (fadd : F → F → F) (m : Mem F)
    (r a b n : Nat) (hn : n < 2 ^ 31)
    (hra : RegionsDisjoint r n a n) (hrb : RegionsDisjoint r n b n) :
    ∀ j, j < n / 4 * 4 →
      compute fadd m r a b n (r + j) =
        compute_sse fadd m r a b (intOfSizeT n) (r + j) := by
  intro j hj
  have hjn : j < n := by omega
  have ha : a + j < r ∨ r + j < a + j := by
    unfold RegionsDisjoint at hra; omega
  have hb : b + j < r ∨ r + j < b + j := by
    unfold RegionsDisjoint at hrb; omega
  rw [compute_get fadd m r a b n j hjn ha hb]
  unfold compute_sse
  rw [nsseOfCount_small hn]
  have h4 : n / 4 * 4 / 4 = n / 4 := by omega
  rw [h4]
  rw [sseBlocks_get fadd m r a b (n / 4) j (by omega) ha hb]

/-- Witness for `kernels_agree` at `n = 8`, index 3. -/
theorem kernels_agree_witness :
    compute faddZ m999 16 0 8 8 (16 + 3) =
      compute_sse faddZ m999 16 0 8 (intOfSizeT 8) (16 + 3) :=
  kernels_agree faddZ m999 16 0 8 8 (by norm_num)
    (by unfold RegionsDisjoint; omega)
    (by unfold RegionsDisjoint; omega) 3 (by norm_num)

/-- C4 counterexample: the claim's "for every `n >= 0` the vectorized
kernel does not write indices `[m, n)`" fails at `n = 2^31 + 2`: the
narrowed `int` count is negative, its conversion back to `size_t` makes
`nsse = 2^64 - 2^31`, and the loop DOES write index `2^31 ∈ [m, n)`
(`m = floor(n/4)*4 = 2^31`): with memory 999 everywhere and read buffers
out of the loop's way (`r = 0`, `a = 2^64`, `b = 2^65`), `r[2^31]` becomes
`999 + 999 = 1998` instead of keeping its prior value 999. -/
theorem sse_tail_unwritten_cex :
    compute_sse faddZ m999 0 (2 ^ 64) (2 ^ 65) (intOfSizeT (2 ^ 31 + 2))
      (0 + 2 ^ 31) = 1998 ∧
    m999 (0 + 2 ^ 31) = 999 ∧ (1998 : ℤ) ≠ 999 ∧
    (2 ^ 31 + 2) / 4 * 4 ≤ 2 ^ 31 ∧ 2 ^ 31 < 2 ^ 31 + 2 := by
  have hk : nsseOfCount (intOfSizeT (2 ^ 31 + 2)) / 4 = 2 ^ 62 - 2 ^ 29 := by
    decide
  refine ⟨?_, rfl, by decide, by norm_num, by norm_num⟩
  unfold compute_sse
  rw [hk]
  rw [sseBlocks_get faddZ m999 0 (2 ^ 64) (2 ^ 65) (2 ^ 62 - 2 ^ 29) (2 ^ 31)
    (by norm_num) (Or.inr (by norm_num)) (Or.inr (by norm_num))]
  rfl

/-- C4 (amended): for every count `n` that survives the `int` narrowing
(`n < 2^31`) the vectorized kernel writes nothing at or beyond index
`m = floor(n/4)*4` — in particular the whole tail `[m, n)` keeps the
values the buffer held before the call; for `n = 1, 2, 3` the kernel
leaves ALL of memory untouched, and for `n = 10` indices 8 and 9 are
untouched. -/
theorem sse_tail_unwritten (F : Type) (fadd : F → F → F) (m : Mem F)
    (r a b n : Nat) (hn : n < 2 ^ 31) :
    (∀ j, n / 4 * 4 ≤ j →
      compute_sse fadd m r a b (intOfSizeT n) (r + j) = m (r + j)) ∧
    (compute_sse fadd m r a b (intOfSizeT 1) = m ∧
     compute_sse fadd m r a b (intOfSizeT 2) = m ∧
     compute_sse fadd m r a b (intOfSizeT 3) = m) ∧
    (compute_sse fadd m r a b (intOfSizeT 10) (r + 8) = m (r + 8) ∧
     compute_sse fadd m r a b (intOfSizeT 10) (r + 9) = m (r + 9)) := by
  have h10 : nsseOfCount (intOfSizeT 10) / 4 = 2 := by decide
  refine ⟨fun j hj => ?_, ⟨rfl, rfl, rfl⟩, ?_, ?_⟩
  · unfold compute_sse
    rw [nsseOfCount_small hn]
    have h4 : n / 4 * 4 / 4 = n / 4 := by omega
    rw [h4]
    exact sseBlocks_frame fadd m r a b (n / 4) (r + j) (Or.inr (by omega))
  · unfold compute_sse
    rw [h10]
    exact sseBlocks_frame fadd m r a b 2 (r + 8) (Or.inr (by omega))
  · unfold compute_sse
    rw [h10]
    exact sseBlocks_frame fadd m r a b 2 (r + 9) (Or.inr (by omega))

/-- Witness for `sse_tail_unwritten` at `n = 10`, tail index `j = 8`. -/
theorem sse_tail_unwritten_witness :
    compute_sse faddZ m999 0 100 200 (intOfSizeT 10) (0 + 8) = m999 (0 + 8) :=
  (sse_tail_unwritten ℤ faddZ m999 0 100 200 10 (by norm_num)).1 8 (by norm_num)

/-- C9 counterexample: purity of the vectorized kernel with respect to its
input buffers fails at count `n = 2^31 + 2` (which narrows to a negative
`int`): with `r = 0`, `a = n`, `b = 2^64` (regions of length `n` pairwise
disjoint) and memory 999 everywhere, the runaway loop writes address
`a + 0` — after the call `a[0] = 1998`, no longer its prior value 999. -/
theorem kernels_pure_cex :
    compute_sse faddZ m999 0 (2 ^ 31 + 2) (2 ^ 64) (intOfSizeT (2 ^ 31 + 2))
      (0 + (2 ^ 31 + 2)) = 1998 ∧
    m999 (0 + (2 ^ 31 + 2)) = 999 ∧ (1998 : ℤ) ≠ 999 ∧
    RegionsDisjoint 0 (2 ^ 31 + 2) (2 ^ 31 + 2) (2 ^ 31 + 2) ∧
    RegionsDisjoint 0 (2 ^ 31 + 2) (2 ^ 64) (2 ^ 31 + 2) ∧
    RegionsDisjoint (2 ^ 31 + 2) (2 ^ 31 + 2) (2 ^ 64) (2 ^ 31 + 2) ∧
    (2 ^ 31 + 2) + 0 = 0 + (2 ^ 31 + 2 : Nat) := by
  have hk : nsseOfCount (intOfSizeT (2 ^ 31 + 2)) / 4 = 2 ^ 62 - 2 ^ 29 := by
    decide
  refine ⟨?_, rfl, by decide, ?_, ?_, ?_, by norm_num⟩
  · unfold compute_sse
    rw [hk]
    rw [sseBlocks_get faddZ m999 0 (2 ^ 31 + 2) (2 ^ 64) (2 ^ 62 - 2 ^ 29)
      (2 ^ 31 + 2) (by norm_num) (Or.inr (by norm_num)) (Or.inr (by norm_num))]
    rfl
  · unfold RegionsDisjoint; left; norm_num
  · unfold RegionsDisjoint; left; norm_num
  · unfold RegionsDisjoint; left; norm_num

/-- C9 (amended): the scalar kernel writes only the result buffer and, on
disjoint buffers, leaves `a` and `b` unchanged, for every count `n`; the
vectorized kernel has the same purity for every count that survives the
`int` narrowing (`n < 2^31`). -/
theorem kernels_pure :
    ∀ (F : Type) (fadd : F → F → F) (m : Mem F) (r a b n : Nat),
      (∀ q, q < r ∨ r + n ≤ q → compute fadd m r a b n q = m q) ∧
      (RegionsDisjoint r n a n →
        ∀ j, j < n → compute fadd m r a b n (a + j) = m (a + j)) ∧
      (RegionsDisjoint r n b n →
        ∀ j, j < n → compute fadd m r a b n (b + j) = m (b + j)) ∧
      (n < 2 ^ 31 →
        (∀ q, q < r ∨ r + n ≤ q →
          compute_sse fadd m r a b (intOfSizeT n) q = m q) ∧
        (RegionsDisjoint r n a n → ∀ j, j < n →
          compute_sse fadd m r a b (intOfSizeT n) (a + j) = m (a + j)) ∧
        (RegionsDisjoint r n b n → ∀ j, j < n →
          compute_sse fadd m r a b (intOfSizeT n) (b + j) = m (b + j))) := by
  intro F fadd m r a b n
  have hsse : ∀ hn : n < 2 ^ 31, ∀ q, q < r ∨ r + n ≤ q →
      compute_sse fadd m r a b (intOfSizeT n) q = m q := by
    intro hn q hq
    unfold compute_sse
    rw [nsseOfCount_small hn]
    have h4 : n / 4 * 4 / 4 = n / 4 := by omega
    rw [h4]
    exact sseBlocks_frame fadd m r a b (n / 4) q (by omega)
  refine ⟨fun q hq => compute_frame fadd m r a b n q hq,
    fun hd j hj => compute_frame fadd m r a b n (a + j)
      (by unfold RegionsDisjoint at hd; omega),
    fun hd j hj => compute_frame fadd m r a b n (b + j)
      (by unfold RegionsDisjoint at hd; omega),
    fun hn => ⟨hsse hn,
      fun hd j hj => hsse hn (a + j) (by unfold RegionsDisjoint at hd; omega),
      fun hd j hj => hsse hn (b + j) (by unfold RegionsDisjoint at hd; omega)⟩⟩

/-- Witness for `kernels_pure`: at `n = 8` with disjoint buffers the
scalar kernel leaves `a[3]` unchanged. -/
theorem kernels_pure_witness :
    compute faddZ m999 16 0 8 8 (0 + 3) = m999 (0 + 3) :=
  (kernels_pure ℤ faddZ m999 16 0 8 8).2.1
    (by unfold RegionsDisjoint; omega) 3 (by norm_num)

end Simd
